import Mathlib

/-!
Verification of the softmock event ingest / merge / broadcast subsystem
(`mitmproxy/tools/web/app.py`), shallowly embedded: strings are lists of
characters, the sqlite `Mock1` table is a list of rows in insertion order,
and exceptions swallowed by the code are modelled by the functions simply
returning their inputs unchanged.
-/

set_option autoImplicit false

namespace SoftMock

/-- Strings are modelled as lists of characters. -/
abbrev Str := List Char

/-- Coerce a Lean string literal to the character-list model. -/
def chars (s : String) : Str := s.data

/-- Python `a.startswith`-style check used to implement `in`:
does `needle` occur at the head of `haystack`? -/
def leadMatch : Str → Str → Bool
  | [], _ => true
  | _ :: _, [] => false
  | a :: as, b :: bs => a == b && leadMatch as bs

/-- Python's substring test `needle in haystack` (the empty needle is in
every string). -/
def substrIn (needle : Str) : Str → Bool
  | [] => needle.isEmpty
  | b :: tl => leadMatch needle (b :: tl) || substrIn needle tl

/-- Python's `s.split(c)`: split a character list on every occurrence of
`c`; always returns at least one (possibly empty) chunk. -/
def pySplit (c : Char) : List Char → List (List Char)
  | [] => [[]]
  | x :: xs =>
    if x == c then [] :: pySplit c xs
    else
      match pySplit c xs with
      | [] => [[x]]
      | h :: t => (x :: h) :: t

/-- The request part of an ingest event's `data`
(`flow_to_json` / `kwargs['data']['request']`). The `host` field is
optional because `broadcast` guards its access with `try/except`. Fields
not read by the ingest path (port, headers, body, timing) are omitted. -/
structure Request where
  scheme : Str
  host : Option Str
  path : Str
  deriving DecidableEq

/-- The response part of an ingest event's `data`
(`kwargs['data']['response']`). `html` is the materialized body produced
by `flow_to_json` (absent or empty when no body was captured); the other
response fields are summarised by `status_code`. -/
structure Response where
  status_code : Nat
  html : Option Str
  deriving DecidableEq

/-- An ingest event's `data` dictionary. -/
structure EventData where
  id : Str
  request : Option Request
  response : Option Response
  deriving DecidableEq

/-- A full ingest event / broadcast message: the `kwargs` of
`WebSocketEventBroadcaster.broadcast` (`cmd`, `resource`, `data`). -/
structure Msg where
  cmd : Str
  resource : Str
  data : EventData
  deriving DecidableEq

/-- One row of the sqlite `Mock1` table: columns `id`, `detail`, `url`,
`status`. `detail` is the urlquoted JSON dump of the whole message; since
quote/unquote and dumps/loads are mutually inverse we store the message
itself. `id` is `Option` because `CreateFlow.post` inserts without an
`id` column (NULL). -/
structure Row where
  id : Option Str
  detail : Msg
  url : Str
  status : Str
  deriving DecidableEq

/-- The `Mock1` table, in insertion order. -/
abbrev Store := List Row

/-- `is_update_response` in `broadcast`: the event carries a materialized
response body exactly when `data` has a (truthy) `response` whose `html`
field is a truthy (nonempty) string. -/
def isUpdateResponse (d : EventData) : Bool :=
  match d.response with
  | none => false
  | some r =>
    match r.html with
    | none => false
    | some s => !s.isEmpty

/-- The canonical record key:
`req['scheme'] + '://' + req['host'] + req['path'].split('?')[0]`. -/
def canonicalKey (scheme host path : Str) : Str :=
  scheme ++ chars "://" ++ host ++ (pySplit '?' path).headD []

/-- The rewritten message of the merge branch of `broadcast`
(lines 291-303): `kwargs['data']['id']` becomes the stored id,
`kwargs['cmd']` becomes `'update'`, and when the incoming event has no
materialized response the stored response (possibly absent) replaces the
incoming one. -/
def mergedMsg (m : Msg) (row : Row) : Msg :=
  { m with
      cmd := chars "update",
      data :=
        { m.data with
            id := row.detail.data.id,
            response :=
              if isUpdateResponse m.data then m.data.response
              else row.detail.data.response } }

/-- The row inserted by the no-existing-record branch of `broadcast`
(lines 306-310): the event's own id, the message itself as detail, and
status `'1'`. -/
def newRow (m : Msg) (url : Str) : Row :=
  { id := some m.data.id, detail := m, url := url, status := chars "1" }

/-- The database section of `WebSocketEventBroadcaster.broadcast`
(lines 281-314), reached once the guards have passed: canonicalize the
key, decide create-or-merge against the `Mock1` table, and write.
Returns the new table and the (possibly rewritten) message that the
delivery loop will fan out. -/
def mergeAndPersist (st : Store) (m : Msg) (req : Request) (host : Str) :
    Store × Msg :=
  let url := canonicalKey req.scheme host req.path
  match st.find? (fun r => r.url == url) with
  | some row =>
    (st.map (fun r =>
       if r.url == url then { r with detail := mergedMsg m row } else r),
     mergedMsg m row)
  | none =>
    (st ++ [newRow m url], m)

/-- The persistence part of `WebSocketEventBroadcaster.broadcast`
(lines 271-314): the resource guard, the `try/except`-wrapped
scope-filter check, then `mergeAndPersist`. Returns the new table and
the message to be fanned out (`none` when the code path returns before
reaching the delivery loop: wrong resource, substring check failed, or
the `try/except` swallowed a missing host option / missing request /
missing request host). -/
def ingestStore (hostOpt : Option Str) (st : Store) (m : Msg) : Store × Option Msg :=
  if m.resource == chars "flows" then
    match hostOpt, m.data.request with
    | some active, some req =>
      match req.host with
      | some host =>
        if substrIn active host then
          ((mergeAndPersist st m req host).1, some (mergeAndPersist st m req host).2)
        else (st, none)
      | none => (st, none)
    | _, _ => (st, none)
  else (st, none)

/-- A live websocket connection in `cls.connections`. `healthy` models
whether `write_message` succeeds on it or raises. -/
structure Subscriber where
  sid : Nat
  healthy : Bool
  deriving DecidableEq

/-- The delivery loop of `broadcast` (lines 316-321): each send is
attempted independently, a raising connection is skipped (`except: pass`)
and, in particular, never removed from the set. Returns the connection
set after the loop and the list of performed deliveries in order. -/
def sendAll : List Subscriber → Msg → List Subscriber × List (Nat × Msg)
  | [], _ => ([], [])
  | s :: rest, m =>
    let (survivors, delivered) := sendAll rest m
    if s.healthy then (s :: survivors, (s.sid, m) :: delivered)
    else (s :: survivors, delivered)

/-- The whole of `WebSocketEventBroadcaster.broadcast`: persistence
followed (when not dropped) by fan-out. Returns the new table, the
connection set after the call, and the deliveries. -/
def broadcast (hostOpt : Option Str) (subs : List Subscriber) (st : Store)
    (m : Msg) : Store × List Subscriber × List (Nat × Msg) :=
  match ingestStore hostOpt st m with
  | (st', some m') =>
    let (subs', dl) := sendAll subs m'
    (st', subs', dl)
  | (st', none) => (st', subs, [])

/-- `WebSocketEventBroadcaster.on_close`: the closing connection is
removed from the live set. -/
def closeConn (subs : List Subscriber) (c : Subscriber) : List Subscriber :=
  subs.filter (fun s => !(s == c))

/-- Storage-level failure surfaced by sqlite. -/
inductive StorageErr where
  | uniqueViolation
  deriving DecidableEq

/-- `CreateFlow.post`: `insert into Mock1 (detail, status, url) values
(?, '1', ?)` with no `id`. Modelled from the spec: the `Mock1` schema is
not in src/ (only its users are); per the spec, `key`/`url` carries a
hard uniqueness constraint ("Uniqueness on `key` is a hard constraint"),
so the bare insert fails with a StorageError when a row with the same
url already exists, instead of adding a second row. -/
def createFlow (st : Store) (url : Str) (detail : Msg) :
    Except StorageErr Store :=
  if st.any (fun r => r.url == url) then .error .uniqueViolation
  else .ok (st ++ [{ id := none, detail := detail, url := url,
                     status := chars "1" }])

/-- `UpdateFlow.post`: `update Mock1 set detail=?, status=? where url=?`;
overwrites payload and flag on every matching row, no-op when absent. -/
def updateFlow (st : Store) (url status : Str) (detail : Msg) : Store :=
  st.map (fun r =>
    if r.url == url then { r with detail := detail, status := status } else r)

/-- `DeleteFlow.post`: `delete from Mock1 where url=?`; no-op on an
absent key. -/
def deleteFlow (st : Store) (url : Str) : Store :=
  st.filter (fun r => !(r.url == url))

/-- `UpdateStatus.post`'s SQL effect: `update Mock1 set status=? where
url=?`; touches only the `status` column, no-op when the key is absent. -/
def updateStatus (st : Store) (url status : Str) : Store :=
  st.map (fun r => if r.url == url then { r with status := status } else r)

/-- Possible outcomes of a mutation-gateway endpoint, per the error
taxonomy: success with a response body, or a NotFound rejection. -/
inductive GatewayOutcome where
  | ok (st : Store) (body : Str)
  | notFound
  deriving DecidableEq

/-- `UpdateStatus.post` as an endpoint: runs the SQL update and writes
`'0'`; the code has no absent-key check, so it never produces
`notFound`. -/
def updateStatusEndpoint (st : Store) (url status : Str) : GatewayOutcome :=
  .ok (updateStatus st url status) (chars "0")

/-- One operation against the shared `Mock1` table: an engine ingest
(broadcast) or one of the mutation-gateway writes. -/
inductive Op where
  | ingest (hostOpt : Option Str) (m : Msg)
  | create (url : Str) (detail : Msg)
  | update (url status : Str) (detail : Msg)
  | delete (url : Str)
  | setEnabled (url status : Str)

/-- The table after one operation; a failing gateway create leaves it
unchanged. -/
def stepOp (st : Store) : Op → Store
  | .ingest h m => (ingestStore h st m).1
  | .create url d =>
    match createFlow st url d with
    | .ok st' => st'
    | .error _ => st
  | .update url s d => updateFlow st url s d
  | .delete url => deleteFlow st url
  | .setEnabled url s => updateStatus st url s

/-- Run a sequence of operations from the empty table. -/
def runOps (ops : List Op) : Store := ops.foldl stepOp []

/-- The uniqueness invariant: no two rows share a url. -/
def keysNodup (st : Store) : Prop := (st.map (fun r => r.url)).Nodup

/-! Concrete values used by witnesses and counterexamples. -/

/-- A request for `http://a.com/p?x=1`. -/
def reqEx : Request :=
  { scheme := chars "http", host := some (chars "a.com"), path := chars "/p?x=1" }

/-- A well-formed ingest event for `reqEx` with no response. -/
def msgEx : Msg :=
  { cmd := chars "create", resource := chars "flows",
    data := { id := chars "id1", request := some reqEx, response := none } }

/-- A stored, materialized response. -/
def respStored : Response := { status_code := 200, html := some (chars "<body>") }

/-- A stored message with `respStored` attached and id `oldid`. -/
def msgStored : Msg :=
  { cmd := chars "create", resource := chars "flows",
    data := { id := chars "oldid", request := some reqEx,
              response := some respStored } }

/-- The stored row for key `http://a.com/p` carrying `msgStored`. -/
def rowEx : Row :=
  { id := some (chars "oldid"), detail := msgStored,
    url := chars "http://a.com/p", status := chars "1" }

/-- A stored row for key `http://a.com/p` whose record has no response. -/
def rowNoResp : Row :=
  { id := some (chars "oldid"), detail := msgEx,
    url := chars "http://a.com/p", status := chars "1" }

/-- An incoming response that is present but not materialized
(`html` absent). -/
def respBare : Response := { status_code := 200, html := none }

/-- An incoming event for the same key carrying `respBare` and the
transient id `id2`. -/
def msgBare : Msg :=
  { cmd := chars "update", resource := chars "flows",
    data := { id := chars "id2", request := some reqEx,
              response := some respBare } }

/-- A flows event whose `data` has no `request` key at all. -/
def msgNoReq : Msg :=
  { cmd := chars "create", resource := chars "flows",
    data := { id := chars "id9", request := none, response := none } }

/-- A request whose host is `api.a.com`. -/
def reqApi : Request :=
  { scheme := chars "http", host := some (chars "api.a.com"),
    path := chars "/q" }

/-- A well-formed flows event for `reqApi`. -/
def msgApi : Msg :=
  { cmd := chars "create", resource := chars "flows",
    data := { id := chars "idA", request := some reqApi, response := none } }

/-- A healthy subscriber. -/
def sub1 : Subscriber := { sid := 1, healthy := true }

/-- A subscriber whose sends raise. -/
def sub2 : Subscriber := { sid := 2, healthy := false }

/-! Helper lemmas. -/

theorem pySplit_ne_nil (c : Char) (l : List Char) : pySplit c l ≠ [] := by
  cases l with
  | nil => simp [pySplit]
  | cons x xs =>
    simp only [pySplit]
    split
    · simp
    · split <;> simp

theorem pySplit_headD (c : Char) (l : List Char) :
    (pySplit c l).headD [] = l.takeWhile (fun x => !(x == c)) := by
  induction l with
  | nil => rfl
  | cons x xs ih =>
    simp only [pySplit, List.takeWhile]
    by_cases hx : x == c
    · simp [hx]
    · have hne := pySplit_ne_nil c xs
      cases hps : pySplit c xs with
      | nil => exact absurd hps hne
      | cons h t =>
        rw [hps] at ih
        simp [hx, ← ih]

theorem sendAll_eq (subs : List Subscriber) (m : Msg) :
    sendAll subs m
      = (subs, (subs.filter (fun s => s.healthy)).map (fun s => (s.sid, m))) := by
  induction subs with
  | nil => rfl
  | cons s rest ih =>
    simp only [sendAll, ih]
    by_cases h : s.healthy <;> simp [h]

/-- When all guards pass, `ingestStore` runs `mergeAndPersist` and
forwards its message. -/
theorem ingestStore_guards (active : Str) (st : Store) (m : Msg)
    (req : Request) (h : Str)
    (hres : m.resource = chars "flows")
    (hreq : m.data.request = some req)
    (hhost : req.host = some h)
    (hsub : substrIn active h = true) :
    ingestStore (some active) st m
      = ((mergeAndPersist st m req h).1, some (mergeAndPersist st m req h).2) := by
  simp [ingestStore, hres, hreq, hhost, hsub]

theorem keysNodup_map (st : Store) (f : Row → Row)
    (hf : ∀ r, (f r).url = r.url) (h : keysNodup st) :
    keysNodup (st.map f) := by
  unfold keysNodup at *
  rw [List.map_map]
  have hfe : ((fun r => r.url) ∘ f) = fun r : Row => r.url := funext fun r => hf r
  rw [hfe]
  exact h

theorem keysNodup_append (st : Store) (row : Row)
    (h : keysNodup st) (habs : ∀ r ∈ st, r.url ≠ row.url) :
    keysNodup (st ++ [row]) := by
  unfold keysNodup at *
  rw [List.map_append]
  refine List.Nodup.append h (List.nodup_singleton _) ?_
  intro a ha hb
  rcases List.mem_map.mp ha with ⟨r, hr, rfl⟩
  rcases List.mem_singleton.mp hb with h'
  exact habs r hr h'

theorem keysNodup_filter (st : Store) (p : Row → Bool) (h : keysNodup st) :
    keysNodup (st.filter p) := by
  unfold keysNodup at *
  exact h.sublist ((List.filter_sublist st).map _)

/-- Merge branch of `mergeAndPersist`, as an equation. -/
theorem mergeAndPersist_of_found (st : Store) (m : Msg) (req : Request)
    (host : Str) (row : Row)
    (hfind : st.find? (fun r => r.url == canonicalKey req.scheme host req.path)
               = some row) :
    mergeAndPersist st m req host
      = (st.map (fun r =>
           if r.url == canonicalKey req.scheme host req.path
           then { r with detail := mergedMsg m row } else r),
         mergedMsg m row) := by
  simp [mergeAndPersist, hfind]

/-- Insert branch of `mergeAndPersist`, as an equation. -/
theorem mergeAndPersist_of_absent (st : Store) (m : Msg) (req : Request)
    (host : Str)
    (hfind : st.find? (fun r => r.url == canonicalKey req.scheme host req.path)
               = none) :
    mergeAndPersist st m req host
      = (st ++ [newRow m (canonicalKey req.scheme host req.path)], m) := by
  simp [mergeAndPersist, hfind]

theorem mergeAndPersist_keysNodup (st : Store) (m : Msg) (req : Request)
    (host : Str) (h : keysNodup st) :
    keysNodup (mergeAndPersist st m req host).1 := by
  cases hfind : st.find? (fun r => r.url == canonicalKey req.scheme host req.path) with
  | some row =>
    rw [mergeAndPersist_of_found st m req host row hfind]
    refine keysNodup_map st _ ?_ h
    intro r
    by_cases hr : r.url == canonicalKey req.scheme host req.path <;> simp [hr]
  | none =>
    rw [mergeAndPersist_of_absent st m req host hfind]
    refine keysNodup_append st _ h ?_
    intro r hr hurl
    have := List.find?_eq_none.mp hfind r hr
    simp only [newRow] at hurl
    simp only [hurl] at this
    simp at this

theorem ingestStore_keysNodup (hostOpt : Option Str) (st : Store) (m : Msg)
    (h : keysNodup st) : keysNodup (ingestStore hostOpt st m).1 := by
  unfold ingestStore
  split
  · split
    · split
      · split
        · exact mergeAndPersist_keysNodup _ _ _ _ h
        · exact h
      · exact h
    · exact h
  · exact h

theorem createFlow_keysNodup (st : Store) (url : Str) (d : Msg)
    (st' : Store) (h : keysNodup st) (hok : createFlow st url d = .ok st') :
    keysNodup st' := by
  unfold createFlow at hok
  by_cases hany : st.any (fun r => r.url == url) = true
  · rw [if_pos hany] at hok
    cases hok
  · rw [if_neg hany] at hok
    cases hok
    refine keysNodup_append st _ h ?_
    intro r hr hurl
    have hfalse : st.any (fun r => r.url == url) = false := by
      simpa using hany
    have := List.any_eq_false.mp hfalse r hr
    simp only [hurl] at this
    simp at this

theorem stepOp_keysNodup (st : Store) (op : Op) (h : keysNodup st) :
    keysNodup (stepOp st op) := by
  cases op with
  | ingest ho m => exact ingestStore_keysNodup ho st m h
  | create url d =>
    simp only [stepOp]
    cases hc : createFlow st url d with
    | ok st' => exact createFlow_keysNodup st url d st' h hc
    | error e => exact h
  | update url s d =>
    refine keysNodup_map st _ ?_ h
    intro r
    by_cases hr : r.url == url <;> simp [updateFlow, hr]
  | delete url => exact keysNodup_filter st _ h
  | setEnabled url s =>
    refine keysNodup_map st _ ?_ h
    intro r
    by_cases hr : r.url == url <;> simp [updateStatus, hr]

theorem foldl_stepOp_keysNodup (ops : List Op) (st : Store) (h : keysNodup st) :
    keysNodup (ops.foldl stepOp st) := by
  induction ops generalizing st with
  | nil => exact h
  | cons op rest ih => exact ih _ (stepOp_keysNodup st op h)

/-! The claims. -/

/-- Claim C1: across every sequence of ingest (broadcast) and
mutation-gateway operations (create, update, delete, setEnabled)
starting from the empty table, the record store never contains two rows
with the same key; in particular a gateway create for a key that already
has a row fails with a storage error instead of producing a second row. -/
theorem C1_key_uniqueness (ops : List Op) : keysNodup (runOps ops) :=
  foldl_stepOp_keysNodup ops [] (by simp [keysNodup])

/-- Claim C5: the canonical record key is
`scheme ++ "://" ++ host ++` the path with everything from the first
`'?'` onward removed, with no other normalization; hence
`http://a.com/p?x=1` and `http://a.com/p?y=2` both canonicalize to
`http://a.com/p`. -/
theorem C5_canonical_key :
    (∀ scheme host path : Str,
       canonicalKey scheme host path
         = scheme ++ chars "://" ++ host
             ++ path.takeWhile (fun x => !(x == '?')))
    ∧ canonicalKey (chars "http") (chars "a.com") (chars "/p?x=1")
        = chars "http://a.com/p"
    ∧ canonicalKey (chars "http") (chars "a.com") (chars "/p?y=2")
        = chars "http://a.com/p" := by
  refine ⟨?_, by decide, by decide⟩
  intro scheme host path
  unfold canonicalKey
  rw [pySplit_headD]

/-- Claim C10: a publish of a flows event whose data lacks a request (or
a request host), or a publish while the scope-filter host option is
unset, returns silently: the table is untouched, no subscriber receives
anything, and the subscriber set is unchanged. -/
theorem C10_silent_return (hostOpt : Option Str) (subs : List Subscriber)
    (st : Store) (m : Msg)
    (hres : m.resource = chars "flows")
    (hcase : hostOpt = none ∨ m.data.request = none
      ∨ ∃ req, m.data.request = some req ∧ req.host = none) :
    broadcast hostOpt subs st m = (st, subs, []) := by
  have his : ingestStore hostOpt st m = (st, none) := by
    rcases hcase with h1 | h2 | ⟨req, hreq, hhost⟩
    · subst h1
      cases hr : m.data.request <;> simp [ingestStore, hres, hr]
    · cases hostOpt <;> simp [ingestStore, hres, h2]
    · cases hostOpt <;> simp [ingestStore, hres, hreq, hhost]
  simp [broadcast, his]

/-- Witness for C10: a flows event with no request field is silently
skipped. -/
theorem C10_witness :
    msgNoReq.resource = chars "flows" ∧ msgNoReq.data.request = none
    ∧ broadcast (some (chars "a.com")) [sub1] [] msgNoReq = ([], [sub1], []) :=
  ⟨by decide, by decide,
   C10_silent_return (some (chars "a.com")) [sub1] [] msgNoReq (by decide)
     (Or.inr (Or.inl (by decide)))⟩

/-- Claim C6: for a well-formed flows event, publish delivers to the
(healthy, nonempty) subscriber set exactly when the scope filter's
activeHost is a substring of the event's request host; in particular
`activeHost = "a.com"` lets host `api.a.com` through and drops host
`b.com`. -/
theorem C6_scope_gating (active : Str) (subs : List Subscriber)
    (st : Store) (m : Msg) (req : Request) (h : Str)
    (hres : m.resource = chars "flows")
    (hreq : m.data.request = some req)
    (hhost : req.host = some h)
    (hsub : ∃ s ∈ subs, s.healthy = true) :
    (broadcast (some active) subs st m).2.2 ≠ [] ↔ substrIn active h = true := by
  constructor
  · intro hne
    by_contra hfalse
    have hf : substrIn active h = false := by simpa using hfalse
    have : broadcast (some active) subs st m = (st, subs, []) := by
      simp [broadcast, ingestStore, hres, hreq, hhost, hf]
    rw [this] at hne
    exact hne rfl
  · intro htrue
    have hg := ingestStore_guards active st m req h hres hreq hhost htrue
    obtain ⟨s, hs, hh⟩ := hsub
    have hmem : s ∈ subs.filter (fun s => s.healthy) :=
      List.mem_filter.mpr ⟨hs, hh⟩
    simp only [broadcast, hg, sendAll_eq]
    exact List.ne_nil_of_mem
      (List.mem_map_of_mem (fun s => (s.sid, (mergeAndPersist st m req h).2)) hmem)

/-- Witness for C6: with activeHost `a.com` and one healthy subscriber,
an event for host `api.a.com` is delivered (the substring check holds and
the delivery list is nonempty). -/
theorem C6_witness :
    (∃ s ∈ [sub1], s.healthy = true)
    ∧ substrIn (chars "a.com") (chars "api.a.com") = true
    ∧ (broadcast (some (chars "a.com")) [sub1] [] msgApi).2.2 ≠ [] :=
  ⟨⟨sub1, by decide, by decide⟩, by decide,
   (C6_scope_gating (chars "a.com") [sub1] [] msgApi reqApi
       (chars "api.a.com") (by decide) (by decide) (by decide)
       ⟨sub1, by decide, by decide⟩).mpr (by decide)⟩

/-- Counterexample to claim C3 as stated: with activeHost `b.com`
(non-empty, not a substring of the event host `a.com`) the message is
dropped and, contrary to the claim, nothing is persisted either — the
table stays empty. -/
theorem C3_counterexample :
    msgEx.resource = chars "flows"
    ∧ substrIn (chars "b.com") (chars "a.com") = false
    ∧ broadcast (some (chars "b.com")) [sub1] [] msgEx = ([], [sub1], [])
    ∧ (broadcast (some (chars "b.com")) [sub1] [] msgEx).1.find?
        (fun r => r.url == chars "http://a.com/p") = none := by decide

/-- Claim C3 amended: the scope check runs before the database section,
so a flows event whose host fails the substring test is dropped
entirely — the record store is left unchanged and nothing is delivered;
persistence is not independent of delivery. -/
theorem C3_drop_skips_persist (active : Str) (subs : List Subscriber)
    (st : Store) (m : Msg) (req : Request) (h : Str)
    (hres : m.resource = chars "flows")
    (hreq : m.data.request = some req)
    (hhost : req.host = some h)
    (hsub : substrIn active h = false) :
    broadcast (some active) subs st m = (st, subs, []) := by
  simp [broadcast, ingestStore, hres, hreq, hhost, hsub]

/-- Witness for the amended C3: a mismatching filter leaves a nonempty
table exactly as it was. -/
theorem C3_witness :
    substrIn (chars "b.com") (chars "a.com") = false
    ∧ broadcast (some (chars "b.com")) [sub1] [rowEx] msgEx
        = ([rowEx], [sub1], []) :=
  ⟨by decide,
   C3_drop_skips_persist (chars "b.com") [sub1] [rowEx] msgEx reqEx
     (chars "a.com") (by decide) (by decide) (by decide) (by decide)⟩

/-- Counterexample to claim C4 as stated: with a healthy subscriber
`sub1` and a broken subscriber `sub2`, publish delivers to `sub1` and
returns normally, but `sub2` is NOT removed from the live set — the
delivery loop swallows the send failure with `pass` and never touches
`cls.connections`. -/
theorem C4_counterexample :
    sub2.healthy = false
    ∧ (broadcast (some (chars "a.com")) [sub1, sub2] [] msgEx).2.2
        = [(1, msgEx)]
    ∧ (broadcast (some (chars "a.com")) [sub1, sub2] [] msgEx).2.1
        = [sub1, sub2]
    ∧ sub2 ∈ (broadcast (some (chars "a.com")) [sub1, sub2] [] msgEx).2.1 := by
  decide

/-- Claim C4 amended: for a flows message that passes the gating,
publish delivers to exactly the healthy subscribers (a broken subscriber
never prevents delivery to the others, and the call returns normally
because every send failure is caught), and the subscriber set is left
unchanged — publish itself removes nobody; removal happens only via
`on_close`. -/
theorem C4_delivery_isolation (active : Str) (subs : List Subscriber)
    (st : Store) (m : Msg) (req : Request) (h : Str)
    (hres : m.resource = chars "flows")
    (hreq : m.data.request = some req)
    (hhost : req.host = some h)
    (hsub : substrIn active h = true) :
    (broadcast (some active) subs st m).2.1 = subs
    ∧ (broadcast (some active) subs st m).2.2
        = (subs.filter (fun s => s.healthy)).map
            (fun s => (s.sid, (mergeAndPersist st m req h).2)) := by
  have hg := ingestStore_guards active st m req h hres hreq hhost hsub
  constructor <;> simp [broadcast, hg, sendAll_eq]

/-- Witness for the amended C4: with `sub1` healthy and `sub2` broken,
the surviving set is `[sub1, sub2]` and the deliveries reach exactly
`sub1`. -/
theorem C4_witness :
    (broadcast (some (chars "a.com")) [sub1, sub2] [] msgEx).2.1
        = [sub1, sub2]
    ∧ (broadcast (some (chars "a.com")) [sub1, sub2] [] msgEx).2.2
        = ([sub1, sub2].filter (fun s => s.healthy)).map
            (fun s => (s.sid, (mergeAndPersist [] msgEx reqEx (chars "a.com")).2)) :=
  C4_delivery_isolation (chars "a.com") [sub1, sub2] [] msgEx reqEx
    (chars "a.com") (by decide) (by decide) (by decide) (by decide)

/-- Counterexample to claim C7 as stated: an event arriving with
command `update` and no existing record is persisted and forwarded with
command `update` — the code's insert branch never rewrites `cmd` to
`create`. -/
theorem C7_counterexample :
    msgBare.cmd = chars "update"
    ∧ ingestStore (some (chars "a.com")) [] msgBare
        = ([newRow msgBare (chars "http://a.com/p")], some msgBare)
    ∧ (newRow msgBare (chars "http://a.com/p")).detail.cmd ≠ chars "create"
    ∧ msgBare.cmd ≠ chars "create" := by decide

/-- Claim C7 amended: an ingest event whose canonical key has no stored
record is treated as a create — a new row is appended with status `'1'`
(enabled), the event's payload as-is and the event's own id — and the
forwarded message is the event itself, with its command left exactly as
it arrived (not rewritten to `create`). -/
theorem C7_create_path (active : Str) (st : Store) (m : Msg)
    (req : Request) (h : Str)
    (hres : m.resource = chars "flows")
    (hreq : m.data.request = some req)
    (hhost : req.host = some h)
    (hsub : substrIn active h = true)
    (hfind : st.find? (fun r => r.url == canonicalKey req.scheme h req.path)
               = none) :
    ingestStore (some active) st m
      = (st ++ [newRow m (canonicalKey req.scheme h req.path)], some m) := by
  rw [ingestStore_guards active st m req h hres hreq hhost hsub,
      mergeAndPersist_of_absent st m req h hfind]

/-- Witness for the amended C7: `msgEx` lands in an empty table as a new
enabled row under its canonical key, forwarded unchanged. -/
theorem C7_witness :
    (([] : Store).find?
        (fun r => r.url == canonicalKey reqEx.scheme (chars "a.com") reqEx.path)
      = none)
    ∧ ingestStore (some (chars "a.com")) [] msgEx
        = ([newRow msgEx (canonicalKey reqEx.scheme (chars "a.com") reqEx.path)],
           some msgEx) :=
  ⟨by decide,
   C7_create_path (chars "a.com") [] msgEx reqEx (chars "a.com")
     (by decide) (by decide) (by decide) (by decide) (by decide)⟩

/-- Claim C8: an ingest event whose canonical key has a stored record is
merged: only the matching row's detail is rewritten (its `id` column and
every other row are untouched), the merged message reuses the stored
record's id — the incoming transient id is discarded — and its command
becomes `update` whatever the event's original command was. -/
theorem C8_update_path (active : Str) (st : Store) (m : Msg)
    (req : Request) (h : Str) (row : Row)
    (hres : m.resource = chars "flows")
    (hreq : m.data.request = some req)
    (hhost : req.host = some h)
    (hsub : substrIn active h = true)
    (hfind : st.find? (fun r => r.url == canonicalKey req.scheme h req.path)
               = some row) :
    ingestStore (some active) st m
      = (st.map (fun r =>
           if r.url == canonicalKey req.scheme h req.path
           then { r with detail := mergedMsg m row } else r),
         some (mergedMsg m row))
    ∧ (mergedMsg m row).cmd = chars "update"
    ∧ (mergedMsg m row).data.id = row.detail.data.id := by
  refine ⟨?_, rfl, rfl⟩
  rw [ingestStore_guards active st m req h hres hreq hhost hsub,
      mergeAndPersist_of_found st m req h row hfind]

/-- Witness for C8: merging `msgEx` (transient id `id1`) into the table
holding `rowEx` (id `oldid`) keeps `oldid` and command `update`. -/
theorem C8_witness :
    ([rowEx].find?
        (fun r => r.url == canonicalKey reqEx.scheme (chars "a.com") reqEx.path)
      = some rowEx)
    ∧ (ingestStore (some (chars "a.com")) [rowEx] msgEx
        = ([rowEx].map (fun r =>
             if r.url == canonicalKey reqEx.scheme (chars "a.com") reqEx.path
             then { r with detail := mergedMsg msgEx rowEx } else r),
           some (mergedMsg msgEx rowEx))
       ∧ (mergedMsg msgEx rowEx).cmd = chars "update"
       ∧ (mergedMsg msgEx rowEx).data.id = rowEx.detail.data.id) :=
  ⟨by decide,
   C8_update_path (chars "a.com") [rowEx] msgEx reqEx (chars "a.com") rowEx
     (by decide) (by decide) (by decide) (by decide) (by decide)⟩

/-- Counterexample to claim C2 as stated: the stored record for the key
has no response and the incoming event carries a (non-materialized,
`html`-less) response, so by the claim's second branch the merged
response should equal the incoming one; the code instead overwrites it
with the stored record's absent response, yielding none. -/
theorem C2_counterexample :
    rowNoResp.detail.data.response = none
    ∧ msgBare.data.response = some respBare
    ∧ isUpdateResponse msgBare.data = false
    ∧ ([rowNoResp].find?
        (fun r => r.url == canonicalKey reqEx.scheme (chars "a.com") reqEx.path)
      = some rowNoResp)
    ∧ ((ingestStore (some (chars "a.com")) [rowNoResp] msgBare).2.map
        (fun mm => mm.data.response)) = some none
    ∧ ¬ ((ingestStore (some (chars "a.com")) [rowNoResp] msgBare).2.map
          (fun mm => mm.data.response)) = some msgBare.data.response := by
  decide

/-- Claim C2 amended: when an ingest event merges into a stored record,
the merged response is the incoming one exactly when the incoming event
carries a materialized response body; otherwise the stored record's
response (possibly absent) is retained — in particular a stored response
survives a response-less update, and an incoming materialized response
replaces the stored one. -/
theorem C2_response_merge (active : Str) (st : Store) (m : Msg)
    (req : Request) (h : Str) (row : Row)
    (hres : m.resource = chars "flows")
    (hreq : m.data.request = some req)
    (hhost : req.host = some h)
    (hsub : substrIn active h = true)
    (hfind : st.find? (fun r => r.url == canonicalKey req.scheme h req.path)
               = some row) :
    (ingestStore (some active) st m).2 = some (mergedMsg m row)
    ∧ (isUpdateResponse m.data = false
        → (mergedMsg m row).data.response = row.detail.data.response)
    ∧ (isUpdateResponse m.data = true
        → (mergedMsg m row).data.response = m.data.response) := by
  refine ⟨?_, ?_, ?_⟩
  · rw [ingestStore_guards active st m req h hres hreq hhost hsub,
        mergeAndPersist_of_found st m req h row hfind]
  · intro hmat
    simp [mergedMsg, hmat]
  · intro hmat
    simp [mergedMsg, hmat]

/-- Witness for the amended C2: an incoming event without a materialized
response merged over `rowEx` retains the stored response. -/
theorem C2_witness :
    isUpdateResponse msgEx.data = false
    ∧ ((ingestStore (some (chars "a.com")) [rowEx] msgEx).2
         = some (mergedMsg msgEx rowEx)
       ∧ (mergedMsg msgEx rowEx).data.response = rowEx.detail.data.response) :=
  ⟨by decide,
   (C2_response_merge (chars "a.com") [rowEx] msgEx reqEx (chars "a.com") rowEx
       (by decide) (by decide) (by decide) (by decide) (by decide)).1,
   (C2_response_merge (chars "a.com") [rowEx] msgEx reqEx (chars "a.com") rowEx
       (by decide) (by decide) (by decide) (by decide) (by decide)).2.1 (by decide)⟩

/-- Counterexample to claim C9 as stated: `update_status` on a key
absent from the table succeeds with body `'0'` — the SQL UPDATE matches
nothing and the handler has no NotFound path. -/
theorem C9_counterexample :
    (([] : Store).find? (fun r => r.url == chars "http://a.com/p") = none)
    ∧ updateStatusEndpoint [] (chars "http://a.com/p") (chars "0")
        = .ok [] (chars "0")
    ∧ updateStatusEndpoint [] (chars "http://a.com/p") (chars "0")
        ≠ GatewayOutcome.notFound := by decide

/-- Claim C9 amended: `update_status` never fails with NotFound — on an
absent key it succeeds as a no-op returning `'0'` — and on any table it
touches only the `status` column: ids, urls and details are all
preserved, rows with other keys are untouched, and every row with the
given key gets the new status. -/
theorem C9_set_enabled (st : Store) (url status : Str) :
    updateStatusEndpoint st url status ≠ GatewayOutcome.notFound
    ∧ (st.find? (fun r => r.url == url) = none
        → updateStatusEndpoint st url status = .ok st (chars "0"))
    ∧ (updateStatus st url status).map (fun r => r.id) = st.map (fun r => r.id)
    ∧ (updateStatus st url status).map (fun r => r.url) = st.map (fun r => r.url)
    ∧ (updateStatus st url status).map (fun r => r.detail)
        = st.map (fun r => r.detail)
    ∧ (∀ r ∈ st, r.url ≠ url → r ∈ updateStatus st url status)
    ∧ (∀ r ∈ updateStatus st url status, r.url = url → r.status = status) := by
  refine ⟨by simp [updateStatusEndpoint], ?_, ?_, ?_, ?_, ?_, ?_⟩
  · intro hfind
    have hid : updateStatus st url status = st := by
      unfold updateStatus
      have : st.map (fun r => if r.url == url then { r with status := status } else r)
          = st.map id := by
        apply List.map_congr_left
        intro r hr
        have := List.find?_eq_none.mp hfind r hr
        simp only [Bool.not_eq_true] at this
        simp [this]
      rw [this, List.map_id]
    simp [updateStatusEndpoint, hid]
  · unfold updateStatus
    rw [List.map_map]
    apply List.map_congr_left
    intro r hr
    by_cases h : r.url = url <;> simp [h]
  · unfold updateStatus
    rw [List.map_map]
    apply List.map_congr_left
    intro r hr
    by_cases h : r.url = url <;> simp [h]
  · unfold updateStatus
    rw [List.map_map]
    apply List.map_congr_left
    intro r hr
    by_cases h : r.url = url <;> simp [h]
  · intro r hr hne
    unfold updateStatus
    have : (if r.url == url then { r with status := status } else r) = r := by
      simp [hne]
    rw [← this]
    exact List.mem_map_of_mem _ hr
  · intro r hr hurl
    unfold updateStatus at hr
    rcases List.mem_map.mp hr with ⟨r0, hr0, heq⟩
    by_cases h : r0.url == url
    · rw [if_pos h] at heq
      rw [← heq]
    · rw [if_neg h] at heq
      subst heq
      exact absurd hurl (by simpa using h)

/-- Witness for the amended C9: on the singleton table holding `rowEx`,
updating the status of an absent key is a successful no-op. -/
theorem C9_witness :
    ([rowEx].find? (fun r => r.url == chars "http://b.com/z") = none)
    ∧ updateStatusEndpoint [rowEx] (chars "http://b.com/z") (chars "0")
        = .ok [rowEx] (chars "0") :=
  ⟨by decide,
   (C9_set_enabled [rowEx] (chars "http://b.com/z") (chars "0")).2.1 (by decide)⟩

end SoftMock
